import Mathlib

set_option autoImplicit false

namespace ModularBot

/-- Exception classes that appear in the program.  The first five embed the
`discord.ext.commands.errors` classes imported at `src/core/plugin.py` lines 7-12
and `src/main.py` lines 11-15 (`ExtensionAlreadyLoaded` is imported and handled in
`src/main.py`); `connectionError` embeds the builtin `ConnectionError` named in the
`except` clause at `src/core/plugin.py` line 101. -/
inductive PyExc where
  | extensionFailed
  | extensionNotFound
  | extensionNotLoaded
  | extensionAlreadyLoaded
  | noEntryPointError
  | connectionError
deriving DecidableEq

/-- Modelled from the spec: §6 lists the error kinds the host runtime can report
(`loadModule` : NotFound, InitFailed, AlreadyLoaded, NoEntryPoint; `unloadModule` :
NotFound, NotLoaded; `reloadModule` : NotFound, NotLoaded, InitFailed, NoEntryPoint).
The discord library that raises them is not under `src/`. -/
inductive HostErr where
  | NotFound
  | InitFailed
  | AlreadyLoaded
  | NoEntryPoint
  | NotLoaded
deriving DecidableEq

/-- Modelled from the spec: the correspondence between the §6 error kinds and the
exception classes named in the source (`ExtensionNotFound`, `ExtensionFailed`,
`ExtensionAlreadyLoaded`, `NoEntryPointError`, `ExtensionNotLoaded`), matching the
per-kind handling visible in `src/main.py` lines 191-236. -/
def hostErrToExc : HostErr → PyExc
  | HostErr.NotFound => PyExc.extensionNotFound
  | HostErr.InitFailed => PyExc.extensionFailed
  | HostErr.AlreadyLoaded => PyExc.extensionAlreadyLoaded
  | HostErr.NoEntryPoint => PyExc.noEntryPointError
  | HostErr.NotLoaded => PyExc.extensionNotLoaded

/-- Embeds the Python `path.replace(".py", "")` step of
`Plugin.generate_safe_path` (`src/core/plugin.py` line 71): remove every
occurrence of the substring `.py`, scanning left to right, non overlapping. -/
def removePy : List Char → List Char
  | '.' :: 'p' :: 'y' :: rest => removePy rest
  | c :: rest => c :: removePy rest
  | [] => []

/-- Embeds a Python single character `str.replace(a, b)`: replace every
occurrence of the character `a` by `b`. -/
def pyCharReplace (a b : Char) (s : List Char) : List Char :=
  s.map (fun c => if c = a then b else c)

/-- Embeds `Plugin.generate_safe_path` (`src/core/plugin.py` lines 68-71):
`plugins.folder_name.` followed by the path with every `.py` removed, then
spaces, hyphens and remaining dots replaced by `_`, then `/` replaced by `.`,
applied in exactly the order of the chained `replace` calls in the source. -/
def generate_safe_path (folder_name path : String) : String :=
  "plugins." ++ folder_name ++ "." ++
    (pyCharReplace '/' '.'
      (pyCharReplace '.' '_'
        (pyCharReplace '-' '_'
          (pyCharReplace ' ' '_' (removePy path.toList))))).asString

/-- Strip a trailing `.py` only (used to state the translation as the words of
the spec describe it, for comparison with `generate_safe_path`). -/
def stripPyAtEnd (l : List Char) : List Char :=
  if ['.', 'p', 'y'].isSuffixOf l then l.take (l.length - 3) else l

/-- The translation as the words of the spec describe it (strip the `.py`
suffix, then normalise spaces, hyphens and interior dots to `_` and path
separators to `.`), to be compared with `generate_safe_path`. -/
def spec_translate (folder_name path : String) : String :=
  "plugins." ++ folder_name ++ "." ++
    (pyCharReplace '/' '.'
      (pyCharReplace '.' '_'
        (pyCharReplace '-' '_'
          (pyCharReplace ' ' '_' (stripPyAtEnd path.toList))))).asString

/-- Embeds Python `str.splitlines` on the line boundaries `\n`, `\r` and `\r\n`
(the boundaries relevant to a requirements file; Python also breaks on a few
rarer control characters).  `cur` is the current line accumulated in reverse;
`afterCr` records that the previous character was `\r`, so that a `\n` right
after it is part of the same `\r\n` boundary and starts no extra line.
A trailing line break produces no final empty line, matching Python. -/
def splitlinesAux : Bool → List Char → List Char → List (List Char)
  | _, cur, [] => if cur.isEmpty then [] else [cur.reverse]
  | afterCr, cur, c :: rest =>
    if c = '\n' then
      if afterCr then splitlinesAux false [] rest
      else cur.reverse :: splitlinesAux false [] rest
    else if c = '\r' then cur.reverse :: splitlinesAux true [] rest
    else splitlinesAux false (c :: cur) rest

/-- Python `str.splitlines` on a string. -/
def splitlines (s : String) : List String :=
  (splitlinesAux false [] s.toList).map List.asString

/-- Embeds `Plugin.get_requirements` (`src/core/plugin.py` lines 224-229).
`reqTxt` models the content of `plugins/<folder_name>/requirements.txt`, or
`none` when that file does not exist; the source returns
`f.read().splitlines()` when the file exists and `[]` otherwise. -/
def get_requirements (reqTxt : Option String) : List String :=
  match reqTxt with
  | some content => splitlines content
  | none => []

/-- Modelled from the spec: the non empty lines of the file, in order (the
return value §4.1 requirement discovery describes), for comparison with
`get_requirements`. -/
def spec_nonempty_lines (content : String) : List String :=
  (splitlines content).filter (fun l => l != "")

/-- The in memory state of one `Plugin` (`src/core/plugin.py` lines 23-56):
the mutable `enabled` flag, the derived `empty` flag, the path to url mapping
`files` (the dict built by `_get_files`, so its paths are pairwise distinct),
and the two resolution lists.  `isLocal` embeds the attribute named `local`
in the source.  Metadata fields not consulted by any lifecycle operation
(name, version, description, author) are omitted; `pid` embeds `self.id`. -/
structure PluginState where
  pid : Nat
  folder_name : String
  enabled : Bool
  empty : Bool
  isLocal : Bool
  files : List (String × String)
  local_files : List String
  non_local_files : List (String × String)
deriving DecidableEq

/-- Embeds `Plugin._exists_localy` (`src/core/plugin.py` lines 201-217).
`onDisk p` models `os.path.exists("plugins/<folder_name>/" + p)`.  The loop
walks `files` in order, appending missing entries to `non_local_files` (and
clearing the `local` flag) and present ones to `local_files`; the recursion
below conses the head file onto the result for the remaining files, which
yields the same ordered lists. -/
def exists_localy (onDisk : String → Bool) :
    List (String × String) → Bool × List (String × String) × List String
  | [] => (true, [], [])
  | (f, u) :: rest =>
    let r := exists_localy onDisk rest
    if onDisk f then (r.1, r.2.1, f :: r.2.2)
    else (false, (f, u) :: r.2.1, r.2.2)

/-- Embeds the loop body of `Plugin._download` (`src/core/plugin.py` lines
83-99).  `net t` models the `requests.get` call for the `t`-th file of the
batch: `Except.ok content` is a successful response body, `Except.error ()`
is a raised `ConnectionError` (§6: `get(url) -> Result<bytes, ConnectionError>`).
Returns the paths appended to `local_files` in order, the `(path, bytes)`
writes performed, and whether the loop was aborted by a raised error. -/
def downloadLoop (net : Nat → Except Unit (List Nat)) :
    Nat → List (String × String) → List String × List (String × List Nat) × Bool
  | _, [] => ([], [], false)
  | t, (f, _) :: rest =>
    match net t with
    | Except.error _ => ([], [], true)
    | Except.ok content =>
      let r := downloadLoop net (t + 1) rest
      (f :: r.1, (f, content) :: r.2.1, r.2.2)

/-- The exception classes caught by the `except` clause of `Plugin._download`
(`src/core/plugin.py` line 101): the builtin `ConnectionError` only. -/
def downloadCaught : PyExc → Bool
  | PyExc.connectionError => true
  | _ => false

/-- Embeds `Plugin._download` (`src/core/plugin.py` lines 73-104): run the
batch over `non_local_files`, keep whatever partial `local_files` state was
reached (`non_local_files` is not touched), and catch a raised
`ConnectionError` at the surrounding `try`.  The third component is the
exception escaping `_download`, if any. -/
def runDownload (net : Nat → Except Unit (List Nat)) (p : PluginState) :
    PluginState × List (String × List Nat) × Option PyExc :=
  let r := downloadLoop net 0 p.non_local_files
  let pending : Option PyExc := if r.2.2 then some PyExc.connectionError else none
  let escaped : Option PyExc :=
    match pending with
    | some e => if downloadCaught e then none else some e
    | none => none
  ({ p with local_files := p.local_files ++ r.1 }, r.2.1, escaped)

/-- The exception classes caught by the `except` clause inside `Plugin.load`
(`src/core/plugin.py` lines 117-122): `ExtensionFailed`, `ExtensionNotFound`,
`ExtensionNotLoaded`, `NoEntryPointError`. -/
def loadCaught : PyExc → Bool
  | PyExc.extensionFailed => true
  | PyExc.extensionNotFound => true
  | PyExc.extensionNotLoaded => true
  | PyExc.noEntryPointError => true
  | _ => false

/-- The exception classes caught by the `except` clause of `Plugin.unload`
(`src/core/plugin.py` line 149): `ExtensionNotFound`, `ExtensionNotLoaded`. -/
def unloadCaught : PyExc → Bool
  | PyExc.extensionNotFound => true
  | PyExc.extensionNotLoaded => true
  | _ => false

/-- The exception classes caught by the `except` clause of `Plugin.reload`
(`src/core/plugin.py` lines 169-174): the same four as `Plugin.load`. -/
def reloadCaught : PyExc → Bool
  | PyExc.extensionFailed => true
  | PyExc.extensionNotFound => true
  | PyExc.extensionNotLoaded => true
  | PyExc.noEntryPointError => true
  | _ => false

/-- One pass of the per file host loop shared by `load`, `unload` and
`reload`: call the host once per module identifier in order; the `t`-th call
reports `host t` (`none` = success, `some e` = the host raised the §6 error
kind `e`).  Returns the identifiers actually passed to the host (the failing
one included) and the first error, after which the loop stops. -/
def hostLoop (host : Nat → Option HostErr) :
    Nat → List String → List String × Option HostErr
  | _, [] => ([], none)
  | t, pp :: rest =>
    match host t with
    | none =>
      let r := hostLoop host (t + 1) rest
      (pp :: r.1, r.2)
    | some e => ([pp], some e)

/-- The outcome of a Python method call: `ok b` means the method returned the
boolean `b`; `raised e` means the exception `e` escaped the method. -/
inductive PyRet where
  | ok (b : Bool)
  | raised (e : PyExc)
deriving DecidableEq

/-- Result of one lifecycle operation: the plugin state afterwards, the
returned boolean or the exception that escaped the method, and the module
identifiers passed to the host, in call order. -/
structure LoadResult where
  st : PluginState
  ret : PyRet
  calls : List String
deriving DecidableEq

/-- Embeds `Plugin.load` (`src/core/plugin.py` lines 106-134): if `enabled`
is false, return `False` with no host interaction; otherwise load each
`local_files` entry under its `generate_safe_path` identifier, and on the
first raised exception either (when the class is in the `except` tuple) set
`enabled = False` and return `False`, or let the exception escape with the
state unchanged. -/
def runLoad (host : Nat → Option HostErr) (p : PluginState) : LoadResult :=
  if p.enabled then
    match hostLoop host 0 (p.local_files.map (generate_safe_path p.folder_name)) with
    | (calls, none) => ⟨p, PyRet.ok true, calls⟩
    | (calls, some e) =>
      if loadCaught (hostErrToExc e) then
        ⟨{ p with enabled := false }, PyRet.ok false, calls⟩
      else
        ⟨p, PyRet.raised (hostErrToExc e), calls⟩
  else
    ⟨p, PyRet.ok false, []⟩

/-- Embeds `Plugin.unload` (`src/core/plugin.py` lines 136-154): iterate
`local_files` with no `enabled` check, delegating each file to the host; the
whole loop sits in one `try`, so the first raised exception ends the
operation, and when its class is in the `except` tuple the method sets
`enabled = False` and returns `False`, otherwise the exception escapes. -/
def runUnload (host : Nat → Option HostErr) (p : PluginState) : LoadResult :=
  match hostLoop host 0 (p.local_files.map (generate_safe_path p.folder_name)) with
  | (calls, none) => ⟨p, PyRet.ok true, calls⟩
  | (calls, some e) =>
    if unloadCaught (hostErrToExc e) then
      ⟨{ p with enabled := false }, PyRet.ok false, calls⟩
    else
      ⟨p, PyRet.raised (hostErrToExc e), calls⟩

/-- Embeds `Plugin.reload` (`src/core/plugin.py` lines 156-179): same loop
shape as `unload`, with the four class `except` tuple of `reload`. -/
def runReload (host : Nat → Option HostErr) (p : PluginState) : LoadResult :=
  match hostLoop host 0 (p.local_files.map (generate_safe_path p.folder_name)) with
  | (calls, none) => ⟨p, PyRet.ok true, calls⟩
  | (calls, some e) =>
    if reloadCaught (hostErrToExc e) then
      ⟨{ p with enabled := false }, PyRet.ok false, calls⟩
    else
      ⟨p, PyRet.raised (hostErrToExc e), calls⟩

/-- Embeds `Plugin.enable` (`src/core/plugin.py` lines 181-185): set
`enabled = True` unconditionally and write `(id, True)` through to the
persisted record. -/
def runEnable (p : PluginState) : PluginState × Nat × Bool :=
  ({ p with enabled := true }, p.pid, true)

/-- Embeds `Plugin.disable` (`src/core/plugin.py` lines 187-191): set
`enabled = False` unconditionally and write `(id, False)` through to the
persisted record. -/
def runDisable (p : PluginState) : PluginState × Nat × Bool :=
  ({ p with enabled := false }, p.pid, false)

/-- Embeds `Plugin.__init__` (`src/core/plugin.py` lines 23-56) after the
folder creation step: `filesDB` models the dict `_get_files` builds from the
`PluginFiles` rows (paths pairwise distinct), `enabledRec` the persisted
enabled flag, `onDisk` the existence checks and `net` the download client.
Steps in source order: build `files`; compute `empty`; resolve with
`_exists_localy`; force `enabled = False` when `empty`; then, when the plugin
is not local, not empty and not enabled, run `_download`.  Returns the
constructed state and the writes of the construction time download batch. -/
def mkPlugin (pid : Nat) (folder_name : String) (enabledRec : Bool)
    (filesDB : List (String × String)) (onDisk : String → Bool)
    (net : Nat → Except Unit (List Nat)) : PluginState × List (String × List Nat) :=
  let emp := filesDB.isEmpty
  let r := exists_localy onDisk filesDB
  let enabled1 := if emp then false else enabledRec
  let st : PluginState :=
    { pid := pid, folder_name := folder_name, enabled := enabled1, empty := emp,
      isLocal := r.1, files := filesDB, local_files := r.2.2, non_local_files := r.2.1 }
  if !r.1 && !emp && !enabled1 then
    let d := runDownload net st
    (d.1, d.2.1)
  else
    (st, [])

/-- A host oracle that always succeeds. -/
def hostNone : Nat → Option HostErr := fun _ => none

/-- A host oracle whose every call reports the AlreadyLoaded error kind. -/
def hostAlready : Nat → Option HostErr := fun _ => some HostErr.AlreadyLoaded

/-- A host oracle whose every call reports the NotFound error kind. -/
def hostNotFound : Nat → Option HostErr := fun _ => some HostErr.NotFound

/-- A disk oracle on which no file is present. -/
def odAbsent : String → Bool := fun _ => false

/-- A network oracle whose every request succeeds with an empty body. -/
def netOk : Nat → Except Unit (List Nat) := fun _ => Except.ok []

/-- A network oracle: first request returns one byte, second raises
ConnectionError. -/
def netFailAt1 : Nat → Except Unit (List Nat) :=
  fun t => if t = 0 then Except.ok [1] else Except.error ()

/-- An enabled plugin with the single resolved file `a.py`. -/
def pLoaded : PluginState :=
  { pid := 1, folder_name := "f", enabled := true, empty := false, isLocal := true,
    files := [("a.py", "u")], local_files := ["a.py"], non_local_files := [] }

/-- A disabled plugin with the single resolved file `a.py`. -/
def pDisabled : PluginState :=
  { pid := 1, folder_name := "f", enabled := false, empty := false, isLocal := true,
    files := [("a.py", "u")], local_files := ["a.py"], non_local_files := [] }

/-- A disk oracle on which exactly the file `a.py` is present. -/
def odOnlyA : String → Bool := fun s => s == "a.py"

/-- An empty plugin whose enabled flag has been switched back on. -/
def pEmptyEnabled : PluginState :=
  { pid := 2, folder_name := "g", enabled := true, empty := true, isLocal := true,
    files := [], local_files := [], non_local_files := [] }

/-- A plugin with two unresolved files, used for download batch checks. -/
def pMissing : PluginState :=
  { pid := 1, folder_name := "f", enabled := false, empty := false, isLocal := false,
    files := [("a.py", "ua"), ("b.py", "ub")], local_files := [],
    non_local_files := [("a.py", "ua"), ("b.py", "ub")] }

/-- Helper: the `exists_localy` equation for a file present on disk. -/
theorem exists_localy_cons_true (od : String → Bool) (f u : String)
    (rest : List (String × String)) (h : od f = true) :
    exists_localy od ((f, u) :: rest) =
      ((exists_localy od rest).1, (exists_localy od rest).2.1, f :: (exists_localy od rest).2.2) := by
  simp [exists_localy, h]

/-- Helper: the `exists_localy` equation for a file missing from disk. -/
theorem exists_localy_cons_false (od : String → Bool) (f u : String)
    (rest : List (String × String)) (h : od f = false) :
    exists_localy od ((f, u) :: rest) =
      (false, (f, u) :: (exists_localy od rest).2.1, (exists_localy od rest).2.2) := by
  simp [exists_localy, h]

/-- Helper: a path lands in `local_files` exactly when it is a declared path
that the disk oracle reports present. -/
theorem exists_localy_mem_local (od : String → Bool) (files : List (String × String)) (p : String) :
    p ∈ (exists_localy od files).2.2 ↔ p ∈ files.map Prod.fst ∧ od p = true := by
  induction files with
  | nil => simp [exists_localy]
  | cons fu rest ih =>
    obtain ⟨f, u⟩ := fu
    cases h : od f with
    | true =>
      rw [exists_localy_cons_true od f u rest h]
      simp only [List.map_cons, List.mem_cons]
      constructor
      · intro h2
        rcases h2 with rfl | h3
        · exact ⟨Or.inl rfl, h⟩
        · obtain ⟨hk, hod⟩ := ih.mp h3
          exact ⟨Or.inr hk, hod⟩
      · rintro ⟨rfl | hk, hod⟩
        · exact Or.inl rfl
        · exact Or.inr (ih.mpr ⟨hk, hod⟩)
    | false =>
      rw [exists_localy_cons_false od f u rest h]
      simp only [List.map_cons, List.mem_cons]
      constructor
      · intro h3
        obtain ⟨hk, hod⟩ := ih.mp h3
        exact ⟨Or.inr hk, hod⟩
      · rintro ⟨rfl | hk, hod⟩
        · rw [h] at hod; simp at hod
        · exact ih.mpr ⟨hk, hod⟩

/-- Helper: a path lands in `non_local_files` exactly when it is a declared
path that the disk oracle reports absent. -/
theorem exists_localy_mem_nonlocal (od : String → Bool) (files : List (String × String)) (p : String) :
    p ∈ (exists_localy od files).2.1.map Prod.fst ↔ p ∈ files.map Prod.fst ∧ od p = false := by
  induction files with
  | nil => simp [exists_localy]
  | cons fu rest ih =>
    obtain ⟨f, u⟩ := fu
    cases h : od f with
    | true =>
      rw [exists_localy_cons_true od f u rest h]
      simp only [List.map_cons, List.mem_cons]
      constructor
      · intro h3
        obtain ⟨hk, hod⟩ := ih.mp h3
        exact ⟨Or.inr hk, hod⟩
      · rintro ⟨rfl | hk, hod⟩
        · rw [h] at hod; simp at hod
        · exact ih.mpr ⟨hk, hod⟩
    | false =>
      rw [exists_localy_cons_false od f u rest h]
      simp only [List.map_cons, List.mem_cons]
      constructor
      · intro h2
        rcases h2 with rfl | h3
        · exact ⟨Or.inl rfl, h⟩
        · obtain ⟨hk, hod⟩ := ih.mp h3
          exact ⟨Or.inr hk, hod⟩
      · rintro ⟨rfl | hk, hod⟩
        · exact Or.inl rfl
        · exact Or.inr (ih.mpr ⟨hk, hod⟩)

/-- Helper: the download loop always appends some prefix of the batch, in
batch order, to `local_files`. -/
theorem downloadLoop_take (net : Nat → Except Unit (List Nat)) :
    ∀ (batch : List (String × String)) (i : Nat), ∃ j, j ≤ batch.length ∧
      (downloadLoop net i batch).1 = (batch.take j).map Prod.fst := by
  intro batch
  induction batch with
  | nil => intro i; exact ⟨0, by simp, by simp [downloadLoop]⟩
  | cons fu rest ih =>
    intro i
    obtain ⟨f, u⟩ := fu
    cases hnet : net i with
    | error e => exact ⟨0, by simp, by simp [downloadLoop, hnet]⟩
    | ok content =>
      obtain ⟨j, hj, h1⟩ := ih (i + 1)
      refine ⟨j + 1, by simp only [List.length_cons]; omega, ?_⟩
      simp [downloadLoop, hnet, h1]

/-- Helper: when the `j`-th request is the first to raise `ConnectionError`,
the loop downloads exactly the first `j` files and stops aborted. -/
theorem downloadLoop_fail (net : Nat → Except Unit (List Nat)) :
    ∀ (batch : List (String × String)) (i j : Nat), j < batch.length →
      (∀ t, t < j → net (i + t) ≠ Except.error ()) → net (i + j) = Except.error () →
      (downloadLoop net i batch).1 = (batch.take j).map Prod.fst ∧
      (downloadLoop net i batch).2.1.map Prod.fst = (batch.take j).map Prod.fst ∧
      (downloadLoop net i batch).2.2 = true := by
  intro batch
  induction batch with
  | nil => intro i j hj _ _; exact absurd hj (by simp)
  | cons fu rest ih =>
    intro i j hj hok hfail
    obtain ⟨f, u⟩ := fu
    cases j with
    | zero =>
      have h0 : net i = Except.error () := by simpa using hfail
      simp [downloadLoop, h0]
    | succ j2 =>
      have h0 : net i ≠ Except.error () := by simpa using hok 0 (Nat.succ_pos _)
      cases hnet : net i with
      | error e => cases e; exact absurd hnet h0
      | ok content =>
        have hok2 : ∀ t, t < j2 → net (i + 1 + t) ≠ Except.error () := by
          intro t ht
          have e1 : i + 1 + t = i + (t + 1) := by omega
          rw [e1]; exact hok (t + 1) (by omega)
        have hfail2 : net (i + 1 + j2) = Except.error () := by
          have e1 : i + 1 + j2 = i + (j2 + 1) := by omega
          rw [e1]; exact hfail
        have hj2 : j2 < rest.length := by simp only [List.length_cons] at hj; omega
        obtain ⟨h1, h2, h3⟩ := ih (i + 1) j2 hj2 hok2 hfail2
        simp [downloadLoop, hnet, h1, h2, h3]

/-- Helper: when every host call succeeds, the per file loop visits every
module identifier and reports no error. -/
theorem hostLoop_ok (host : Nat → Option HostErr) :
    ∀ (l : List String) (i : Nat), (∀ t, t < l.length → host (i + t) = none) →
      hostLoop host i l = (l, none) := by
  intro l
  induction l with
  | nil => intro i _; rfl
  | cons x xs ih =>
    intro i h
    have h0 : host i = none := by simpa using h 0 (Nat.succ_pos _)
    have hrest : ∀ t, t < xs.length → host (i + 1 + t) = none := by
      intro t ht
      have e1 : i + 1 + t = i + (t + 1) := by omega
      rw [e1]; exact h (t + 1) (by simp only [List.length_cons]; omega)
    simp [hostLoop, h0, ih (i + 1) hrest]

/-- Helper: `load` leaves the state unchanged or only clears `enabled`. -/
theorem runLoad_st_cases (host : Nat → Option HostErr) (p : PluginState) :
    (runLoad host p).st = p ∨ (runLoad host p).st = { p with enabled := false } := by
  unfold runLoad
  split
  · split
    · left; rfl
    · split
      · right; rfl
      · left; rfl
  · left; rfl

/-- Helper: `unload` leaves the state unchanged or only clears `enabled`. -/
theorem runUnload_st_cases (host : Nat → Option HostErr) (p : PluginState) :
    (runUnload host p).st = p ∨ (runUnload host p).st = { p with enabled := false } := by
  unfold runUnload
  split
  · left; rfl
  · split
    · right; rfl
    · left; rfl

/-- Helper: `reload` leaves the state unchanged or only clears `enabled`. -/
theorem runReload_st_cases (host : Nat → Option HostErr) (p : PluginState) :
    (runReload host p).st = p ∨ (runReload host p).st = { p with enabled := false } := by
  unfold runReload
  split
  · left; rfl
  · split
    · right; rfl
    · left; rfl

/-- Helper: no line produced by `splitlinesAux` contains a line break. -/
theorem splitlinesAux_no_break :
    ∀ (cs : List Char) (afterCr : Bool) (cur : List Char),
      (∀ ch ∈ cur, ch ≠ '\n' ∧ ch ≠ '\r') →
      ∀ l ∈ splitlinesAux afterCr cur cs, ∀ ch ∈ l, ch ≠ '\n' ∧ ch ≠ '\r' := by
  intro cs
  induction cs with
  | nil =>
    intro afterCr cur hcur l hl
    by_cases hemp : cur.isEmpty <;> simp [splitlinesAux, hemp] at hl
    subst hl
    intro ch hch
    exact hcur ch (List.mem_reverse.mp hch)
  | cons c rest ih =>
    intro afterCr cur hcur l hl
    by_cases h1 : c = '\n'
    · subst h1
      cases afterCr with
      | true =>
        simp only [splitlinesAux, if_pos rfl, if_true] at hl
        exact ih false [] (by intro ch hch; cases hch) l hl
      | false =>
        simp only [splitlinesAux, if_pos rfl, if_false, Bool.false_eq_true] at hl
        rcases List.mem_cons.mp hl with rfl | hl2
        · intro ch hch
          exact hcur ch (List.mem_reverse.mp hch)
        · exact ih false [] (by intro ch hch; cases hch) l hl2
    · by_cases h2 : c = '\r'
      · subst h2
        simp only [splitlinesAux, if_neg h1, if_pos rfl] at hl
        rcases List.mem_cons.mp hl with rfl | hl2
        · intro ch hch
          exact hcur ch (List.mem_reverse.mp hch)
        · exact ih true [] (by intro ch hch; cases hch) l hl2
      · simp only [splitlinesAux, if_neg h1, if_neg h2] at hl
        refine ih false (c :: cur) ?_ l hl
        intro ch hch
        rcases List.mem_cons.mp hch with rfl | hch2
        · exact ⟨h1, h2⟩
        · exact hcur ch hch2

/-- C1: the claim says a first host failure of kind NotFound, InitFailed,
AlreadyLoaded or NoEntryPoint on the k-th file makes load() stop after k host
calls, clear enabled and return false.  The except tuple in the source names
ExtensionNotLoaded instead of ExtensionAlreadyLoaded, so at an enabled plugin
with one resolved file, an AlreadyLoaded report escapes load() as an exception
and enabled stays true, while a NotFound report behaves exactly as claimed
(one call, enabled cleared, false returned); with a succeeding host, load()
returns true. -/
theorem C1_load_first_failure :
    (runLoad hostAlready pLoaded).ret = PyRet.raised PyExc.extensionAlreadyLoaded ∧
    (runLoad hostAlready pLoaded).st.enabled = true ∧
    (runLoad hostAlready pLoaded).calls = ["plugins.f.a"] ∧
    (runLoad hostNotFound pLoaded).ret = PyRet.ok false ∧
    (runLoad hostNotFound pLoaded).st.enabled = false ∧
    (runLoad hostNotFound pLoaded).calls = ["plugins.f.a"] ∧
    (runLoad hostNone pLoaded).ret = PyRet.ok true := by
  decide

/-- C2 counterexample: after the download batch that construction runs for a
disabled, non local plugin, the downloaded path `a` sits in `local_files` and
still sits in `non_local_files`, so the two lists are not disjoint and the
claimed partition fails. -/
theorem C2_partition_counterexample :
    (mkPlugin 1 "f" false [("a", "u")] odAbsent netOk).1.files.map Prod.fst = ["a"] ∧
    "a" ∈ (mkPlugin 1 "f" false [("a", "u")] odAbsent netOk).1.local_files ∧
    "a" ∈ (mkPlugin 1 "f" false [("a", "u")] odAbsent netOk).1.non_local_files.map Prod.fst := by
  decide

/-- C2 amended: after the resolution step the two lists partition the declared
paths (union equal to the keys of `files`, and disjoint); a download batch
leaves `non_local_files` untouched and appends a prefix of the batch paths to
`local_files`, so the union property survives but every downloaded path then
sits in both lists. -/
theorem C2_partition_amended :
    (∀ (od : String → Bool) (files : List (String × String)) (p : String),
      (p ∈ (exists_localy od files).2.2 ∨ p ∈ (exists_localy od files).2.1.map Prod.fst) ↔
        p ∈ files.map Prod.fst) ∧
    (∀ (od : String → Bool) (files : List (String × String)) (p : String),
      p ∈ (exists_localy od files).2.2 → p ∉ (exists_localy od files).2.1.map Prod.fst) ∧
    (∀ (net : Nat → Except Unit (List Nat)) (q : PluginState),
      (runDownload net q).1.non_local_files = q.non_local_files ∧
      ∃ j, j ≤ q.non_local_files.length ∧
        (runDownload net q).1.local_files =
          q.local_files ++ (q.non_local_files.take j).map Prod.fst) := by
  refine ⟨?_, ?_, ?_⟩
  · intro od files p
    rw [exists_localy_mem_local, exists_localy_mem_nonlocal]
    constructor
    · rintro (⟨hk, _⟩ | ⟨hk, _⟩) <;> exact hk
    · intro hk
      cases hod : od p with
      | true => exact Or.inl ⟨hk, rfl⟩
      | false => exact Or.inr ⟨hk, rfl⟩
  · intro od files p hl hn
    have h1 := (exists_localy_mem_local od files p).mp hl
    have h2 := (exists_localy_mem_nonlocal od files p).mp hn
    rw [h1.2] at h2
    simp at h2
  · intro net q
    refine ⟨by simp [runDownload], ?_⟩
    obtain ⟨j, hj, h1⟩ := downloadLoop_take net q.non_local_files 0
    exact ⟨j, hj, by simp [runDownload, h1]⟩

/-- C2 witness: the amended partition instantiated at a concrete disk oracle
and file set. -/
theorem C2_partition_amended_witness :
    (("a.py" ∈ (exists_localy odOnlyA [("a.py", "ua"), ("b.py", "ub")]).2.2 ∨
      "a.py" ∈ (exists_localy odOnlyA [("a.py", "ua"), ("b.py", "ub")]).2.1.map Prod.fst) ↔
      "a.py" ∈ ([("a.py", "ua"), ("b.py", "ub")] : List (String × String)).map Prod.fst) ∧
    "a.py" ∉ (exists_localy odOnlyA [("a.py", "ua"), ("b.py", "ub")]).2.1.map Prod.fst :=
  ⟨C2_partition_amended.1 odOnlyA [("a.py", "ua"), ("b.py", "ub")] "a.py",
    C2_partition_amended.2.1 odOnlyA [("a.py", "ua"), ("b.py", "ub")] "a.py" (by decide)⟩

/-- C3: the claim says no failure ever propagates past the Plugin boundary.
The except tuple of load() does not contain the class the host raises for an
already loaded module, so at an enabled plugin with one resolved file an
AlreadyLoaded report escapes load() as an exception instead of becoming a
boolean result. -/
theorem C3_error_escapes_boundary :
    loadCaught (hostErrToExc HostErr.AlreadyLoaded) = false ∧
    (runLoad hostAlready pLoaded).ret = PyRet.raised PyExc.extensionAlreadyLoaded ∧
    (∀ b : Bool, (runLoad hostAlready pLoaded).ret ≠ PyRet.ok b) := by
  refine ⟨rfl, rfl, ?_⟩
  intro b h
  exact PyRet.noConfusion h

/-- C4: a plugin constructed from a record with no files has `empty = true`
and `enabled = false`, whatever the persisted enabled flag was. -/
theorem C4_empty_record_disabled (pid2 : Nat) (fn : String) (b : Bool)
    (od : String → Bool) (net : Nat → Except Unit (List Nat)) :
    (mkPlugin pid2 fn b [] od net).1.empty = true ∧
    (mkPlugin pid2 fn b [] od net).1.enabled = false :=
  ⟨rfl, rfl⟩

/-- C5 counterexample: an empty plugin is constructed with `enabled = false`,
but one call of the exposed operation enable() sets `enabled = true` again
while the plugin is still empty, contradicting the claimed invariant. -/
theorem C5_enable_reenables_empty :
    (mkPlugin 7 "f" true [] odAbsent netOk).1.empty = true ∧
    (mkPlugin 7 "f" true [] odAbsent netOk).1.enabled = false ∧
    (runEnable (mkPlugin 7 "f" true [] odAbsent netOk).1).1.empty = true ∧
    (runEnable (mkPlugin 7 "f" true [] odAbsent netOk).1).1.enabled = true := by
  decide

/-- C5 amended: construction forces `enabled = false` for an empty plugin and
leaves it with no resolved files; load, unload, reload and disable never turn
`enabled` from false to true; but enable() sets `enabled = true`
unconditionally, and a subsequent load() of the still empty plugin returns
true after zero host calls. -/
theorem C5_empty_inert_amended :
    (∀ (pid2 : Nat) (fn : String) (b : Bool) (od : String → Bool)
        (net : Nat → Except Unit (List Nat)),
      (mkPlugin pid2 fn b [] od net).1.enabled = false ∧
      (mkPlugin pid2 fn b [] od net).1.local_files = []) ∧
    (∀ (host : Nat → Option HostErr) (p : PluginState),
      (runLoad host p).st.enabled = true → p.enabled = true) ∧
    (∀ (host : Nat → Option HostErr) (p : PluginState),
      (runUnload host p).st.enabled = true → p.enabled = true) ∧
    (∀ (host : Nat → Option HostErr) (p : PluginState),
      (runReload host p).st.enabled = true → p.enabled = true) ∧
    (∀ p : PluginState, (runDisable p).1.enabled = false) ∧
    (∀ p : PluginState, (runEnable p).1.enabled = true) ∧
    (∀ (host : Nat → Option HostErr) (p : PluginState),
      p.enabled = true → p.local_files = [] →
        runLoad host p = ⟨p, PyRet.ok true, []⟩) := by
  refine ⟨fun _ _ _ _ _ => ⟨rfl, rfl⟩, ?_, ?_, ?_, fun p => rfl, fun p => rfl, ?_⟩
  · intro host p h
    rcases runLoad_st_cases host p with hc | hc <;> rw [hc] at h
    · exact h
    · simp at h
  · intro host p h
    rcases runUnload_st_cases host p with hc | hc <;> rw [hc] at h
    · exact h
    · simp at h
  · intro host p h
    rcases runReload_st_cases host p with hc | hc <;> rw [hc] at h
    · exact h
    · simp at h
  · intro host p hp hl
    simp [runLoad, hp, hl, hostLoop]

/-- C5 witness: the amended statement instantiated at an empty plugin whose
enabled flag was switched back on. -/
theorem C5_empty_inert_amended_witness :
    runLoad hostNone pEmptyEnabled = ⟨pEmptyEnabled, PyRet.ok true, []⟩ :=
  C5_empty_inert_amended.2.2.2.2.2.2 hostNone pEmptyEnabled rfl rfl

/-- C6: load() on a disabled plugin returns false, performs zero host calls
and leaves the plugin state unchanged. -/
theorem C6_load_disabled_inert (host : Nat → Option HostErr) (p : PluginState)
    (hp : p.enabled = false) :
    runLoad host p = ⟨p, PyRet.ok false, []⟩ := by
  simp [runLoad, hp]

/-- C6 witness: the disabled plugin instance. -/
theorem C6_load_disabled_inert_witness :
    pDisabled.enabled = false ∧
    runLoad hostNone pDisabled = ⟨pDisabled, PyRet.ok false, []⟩ :=
  ⟨rfl, C6_load_disabled_inert hostNone pDisabled rfl⟩

/-- C7: when the j-th request of a download batch is the first to raise a
connection failure, the batch stops there: no exception escapes _download,
`non_local_files` is untouched, exactly the first j files are written and
appended to `local_files`, and every later file of the batch is neither
written nor present in `local_files`. -/
theorem C7_download_abort (p : PluginState) (net : Nat → Except Unit (List Nat)) (j : Nat)
    (hj : j < p.non_local_files.length)
    (hok : ∀ t, t < j → net t ≠ Except.error ())
    (hfail : net j = Except.error ())
    (hnd : (p.non_local_files.map Prod.fst).Nodup)
    (hnew : ∀ q, q ∈ p.non_local_files.map Prod.fst → q ∉ p.local_files) :
    (runDownload net p).2.2 = none ∧
    (runDownload net p).1.non_local_files = p.non_local_files ∧
    (runDownload net p).1.local_files =
      p.local_files ++ (p.non_local_files.take j).map Prod.fst ∧
    (runDownload net p).2.1.map Prod.fst = (p.non_local_files.take j).map Prod.fst ∧
    (∀ q, q ∈ (p.non_local_files.drop j).map Prod.fst →
      q ∉ (runDownload net p).2.1.map Prod.fst ∧
      q ∉ (runDownload net p).1.local_files) := by
  have hok0 : ∀ t, t < j → net (0 + t) ≠ Except.error () := by
    intro t ht; simpa using hok t ht
  have hfail0 : net (0 + j) = Except.error () := by simpa using hfail
  obtain ⟨h1, h2, h3⟩ := downloadLoop_fail net p.non_local_files 0 j hj hok0 hfail0
  have hdisj : ∀ q, q ∈ (p.non_local_files.drop j).map Prod.fst →
      q ∉ (p.non_local_files.take j).map Prod.fst := by
    intro q hqd hqt
    have hsplit : (p.non_local_files.take j).map Prod.fst ++ (p.non_local_files.drop j).map Prod.fst
        = p.non_local_files.map Prod.fst := by
      rw [← List.map_append, List.take_append_drop]
    have hnd2 : ((p.non_local_files.take j).map Prod.fst ++
        (p.non_local_files.drop j).map Prod.fst).Nodup := by
      rw [hsplit]; exact hnd
    exact (List.disjoint_of_nodup_append hnd2) hqt hqd
  refine ⟨by simp [runDownload, h3, downloadCaught], by simp [runDownload],
    by simp [runDownload, h1], by simp [runDownload, h2], ?_⟩
  intro q hq
  have hqb : q ∈ p.non_local_files.map Prod.fst :=
    List.map_subset Prod.fst (List.drop_subset j p.non_local_files) hq
  constructor
  · intro hc
    rw [show (runDownload net p).2.1.map Prod.fst = (p.non_local_files.take j).map Prod.fst
      from by simp [runDownload, h2]] at hc
    exact hdisj q hq hc
  · intro hc
    rw [show (runDownload net p).1.local_files =
        p.local_files ++ (p.non_local_files.take j).map Prod.fst
      from by simp [runDownload, h1]] at hc
    rcases List.mem_append.mp hc with hc1 | hc2
    · exact hnew q hqb hc1
    · exact hdisj q hq hc2

/-- C7 witness: a two file batch whose second request raises the connection
failure: the first file is downloaded, nothing escapes. -/
theorem C7_download_abort_witness :
    (runDownload netFailAt1 pMissing).2.2 = none ∧
    (runDownload netFailAt1 pMissing).1.non_local_files = pMissing.non_local_files ∧
    (runDownload netFailAt1 pMissing).1.local_files =
      pMissing.local_files ++ (pMissing.non_local_files.take 1).map Prod.fst ∧
    (runDownload netFailAt1 pMissing).2.1.map Prod.fst =
      (pMissing.non_local_files.take 1).map Prod.fst := by
  have h := C7_download_abort pMissing netFailAt1 1 (by decide)
    (fun t ht => by
      have h0 : t = 0 := Nat.lt_one_iff.mp ht
      subst h0
      exact fun hc => Except.noConfusion hc)
    rfl (by decide) (fun q _ => List.not_mem_nil q)
  exact ⟨h.1, h.2.1, h.2.2.1, h.2.2.2.1⟩

/-- C8 counterexample: the translation does not strip only a trailing `.py`:
on `a.python/b.py` the source removes the interior `.py` of `.python` as well,
so its output differs from the mapping the claim describes. -/
theorem C8_not_only_a_trailing_strip :
    generate_safe_path "myplug" "a.python/b.py" = "plugins.myplug.athon.b" ∧
    spec_translate "myplug" "a.python/b.py" = "plugins.myplug.a_python.b" ∧
    generate_safe_path "myplug" "a.python/b.py" ≠ spec_translate "myplug" "a.python/b.py" := by
  decide

/-- C8 amended: the translation removes every occurrence of the substring
`.py` (not only a trailing suffix), then normalises spaces, hyphens and
remaining dots to `_`, turns `/` into `.` and adds the `plugins.<folder>.`
prefix; it is a pure function (re running it gives the same identifier) and
is injective on the tested path set. -/
theorem C8_translation_amended :
    generate_safe_path "myplug" "sub dir/mod-a.py" = "plugins.myplug.sub_dir.mod_a" ∧
    (∀ (fn p : String), generate_safe_path fn p = generate_safe_path fn p) ∧
    generate_safe_path "myplug" "sub dir/mod-a.py" ≠ generate_safe_path "myplug" "mod-b.py" ∧
    generate_safe_path "myplug" "mod-b.py" = "plugins.myplug.mod_b" ∧
    generate_safe_path "myplug" "a.python/b.py" = "plugins.myplug.athon.b" := by
  refine ⟨by decide, fun fn p => rfl, by decide, by decide, by decide⟩

/-- C9 counterexample: get_requirements returns every line of the file, so a
blank interior line is kept, while the claim promises only the non empty
lines. -/
theorem C9_keeps_empty_lines :
    get_requirements (some "a\n\nb") = ["a", "", "b"] ∧
    spec_nonempty_lines "a\n\nb" = ["a", "b"] ∧
    get_requirements (some "a\n\nb") ≠ spec_nonempty_lines "a\n\nb" := by
  decide

/-- C9 amended: with no requirements file the result is []; with a file the
result is exactly the splitlines of its content, in order: a two line file
gives those two lines (with or without a trailing newline), interior empty
lines are kept, and no returned line contains a line break character. -/
theorem C9_requirements_amended :
    get_requirements none = [] ∧
    get_requirements (some "pkg1\npkg2") = ["pkg1", "pkg2"] ∧
    get_requirements (some "pkg1\npkg2\n") = ["pkg1", "pkg2"] ∧
    get_requirements (some "a\n\nb") = ["a", "", "b"] ∧
    (∀ (content l : String), l ∈ get_requirements (some content) →
      ∀ ch ∈ l.toList, ch ≠ '\n' ∧ ch ≠ '\r') := by
  refine ⟨rfl, by decide, by decide, by decide, ?_⟩
  intro content l hl ch hch
  simp only [get_requirements, splitlines, List.mem_map] at hl
  obtain ⟨lc, hlc, rfl⟩ := hl
  exact splitlinesAux_no_break content.toList false []
    (by intro ch2 hch2; cases hch2) lc hlc ch hch

/-- C9 witness: the amended statement applied to a one line file. -/
theorem C9_requirements_amended_witness :
    "x" ∈ get_requirements (some "x") ∧ ('x' ≠ '\n' ∧ 'x' ≠ '\r') :=
  ⟨by decide, C9_requirements_amended.2.2.2.2 "x" "x" (by decide) 'x' (by decide)⟩

/-- C10: unload() and reload() do not consult the enabled flag: for any
plugin state, enabled or not, when every host call succeeds they walk
`local_files` in order, call the host once per file under the translated
identifier, and return true with the state unchanged. -/
theorem C10_unload_reload_ignore_enabled (p : PluginState) (host : Nat → Option HostErr)
    (hok : ∀ t, t < p.local_files.length → host t = none) :
    runUnload host p =
      ⟨p, PyRet.ok true, p.local_files.map (generate_safe_path p.folder_name)⟩ ∧
    runReload host p =
      ⟨p, PyRet.ok true, p.local_files.map (generate_safe_path p.folder_name)⟩ := by
  have h0 : ∀ t, t < (p.local_files.map (generate_safe_path p.folder_name)).length →
      host (0 + t) = none := by
    intro t ht
    simpa using hok t (by simpa using ht)
  have h := hostLoop_ok host (p.local_files.map (generate_safe_path p.folder_name)) 0 h0
  constructor
  · simp [runUnload, h]
  · simp [runReload, h]

/-- C10 witness: a disabled plugin with one file is unloaded and reloaded
with one host call each and result true. -/
theorem C10_unload_reload_ignore_enabled_witness :
    runUnload hostNone pDisabled =
      ⟨pDisabled, PyRet.ok true, pDisabled.local_files.map (generate_safe_path pDisabled.folder_name)⟩ ∧
    runReload hostNone pDisabled =
      ⟨pDisabled, PyRet.ok true, pDisabled.local_files.map (generate_safe_path pDisabled.folder_name)⟩ :=
  C10_unload_reload_ignore_enabled pDisabled hostNone (fun _ _ => rfl)

end ModularBot
